import Mathlib

set_option maxRecDepth 4000

/-!
Verification of the PLY / STL mesh decoders (THREE.PLYLoader, THREE.STLLoader)
and the DataView polyfill of this repository, as a shallow embedding in Lean.

Conventions of the embedding:
* A byte buffer is a `List Nat` (entries are byte values; theorems that need it
  carry the hypothesis that entries are `< 256`).
* JavaScript numbers that can be `NaN` or `undefined` are modelled as
  `Option ℚ` (`none` stands for NaN as well as undefined; no claim in this
  development distinguishes the two).
* Code that throws a JavaScript exception (out-of-bounds DataView access,
  member access on `undefined`) is modelled with `Option`/`Except`: `none`
  respectively `.error ()` means the decode call aborts with an exception.
* Host primitives used by the source (`String.prototype.trim`, `split(/\s+/)`,
  `parseInt`, `parseFloat`) are modelled by the `*JS` functions below on the
  inputs the decoders feed them (decimal numerals; the hexadecimal prefix of
  `parseInt` and the `Infinity` literal of `parseFloat` are not modelled).
-/

/-! ### JavaScript string primitives -/

/-- Whitespace class of JavaScript (`\s`, `trim`): the characters the decoders
can actually meet in a mesh file. -/
def isSpaceJS (c : Char) : Bool :=
  c = ' ' || c = '\t' || c = '\n' || c = '\r' || c = '\x0b' || c = '\x0c'

/-- Model of `String.prototype.trim`. -/
def trimJS (s : String) : String :=
  String.mk (((s.toList.dropWhile isSpaceJS).reverse.dropWhile isSpaceJS).reverse)

/-- Accumulator loop of `splitWsJS`. -/
def splitWsAux : List Char → List Char → List String
  | [], acc => if acc.isEmpty then [] else [String.mk acc.reverse]
  | c :: cs, acc =>
    if isSpaceJS c then
      if acc.isEmpty then splitWsAux cs [] else String.mk acc.reverse :: splitWsAux cs []
    else
      splitWsAux cs (c :: acc)

/-- Model of `line.split(/\s+/)` on a trimmed line: the maximal runs of
non-whitespace characters, in order.  (On a string with leading whitespace the
JavaScript call would also emit a leading empty token; the decoders only call
it after `trim`, where the two agree, and on the empty string, where blank
lines have already been skipped by the callers.) -/
def splitWsJS (s : String) : List String :=
  splitWsAux s.toList []

/-- Split a string on `'\n'`, keeping empty pieces — model of `split('\n')`. -/
def splitNlAux : List Char → List Char → List String
  | [], acc => [String.mk acc.reverse]
  | c :: cs, acc =>
    if c = '\n' then String.mk acc.reverse :: splitNlAux cs []
    else splitNlAux cs (c :: acc)

/-- Model of `data.split('\n')`. -/
def splitNlJS (s : String) : List String :=
  splitNlAux s.toList []

/-- Power of two as a rational, `Math.pow(2, k)` (computed through `Nat.pow`
so that concrete evaluation stays cheap; equal to `(2 : ℚ) ^ k`, see
`pow2_eq_zpow` below). -/
def pow2 (k : Int) : ℚ :=
  if 0 ≤ k then ((2 ^ k.toNat : Nat) : ℚ) else 1 / ((2 ^ (-k).toNat : Nat) : ℚ)

/-- Power of ten as a rational, `Math.pow(10, k)`-style, like `pow2`. -/
def pow10 (k : Int) : ℚ :=
  if 0 ≤ k then ((10 ^ k.toNat : Nat) : ℚ) else 1 / ((10 ^ (-k).toNat : Nat) : ℚ)

/-- Numeric value of a list of decimal digit characters (most significant
first). -/
def digitsToNat (ds : List Char) : Nat :=
  ds.foldl (fun acc c => 10 * acc + (c.toNat - '0'.toNat)) 0

/-- Model of the host `parseInt(str)` on decimal input: skip leading
whitespace, optional sign, then the maximal run of decimal digits; `none` is
JavaScript's NaN (no digits at all). -/
def parseIntJS (s : String) : Option Int :=
  let cs := s.toList.dropWhile isSpaceJS
  let (neg, cs) :=
    match cs with
    | '-' :: rest => (true, rest)
    | '+' :: rest => (false, rest)
    | _ => (false, cs)
  let ds := cs.takeWhile Char.isDigit
  if ds.isEmpty then none
  else some (if neg then -(digitsToNat ds : Int) else (digitsToNat ds : Int))

/-- Exponent part of `parseFloat` (`e`/`E` already consumed): sign and digits;
a malformed exponent contributes nothing, as in JavaScript, where scanning
stops before the `e`. -/
def parseExpDigits (cs : List Char) : Int :=
  let (neg, cs) :=
    match cs with
    | '-' :: rest => (true, rest)
    | '+' :: rest => (false, rest)
    | _ => (false, cs)
  let ds := cs.takeWhile Char.isDigit
  if ds.isEmpty then 0
  else if neg then -(digitsToNat ds : Int) else (digitsToNat ds : Int)

/-- Model of the host `parseFloat(str)`: sign, integer digits, optional
fraction, optional exponent; `none` is NaN (not even one digit). -/
def parseFloatJS (s : String) : Option ℚ :=
  let cs := s.toList.dropWhile isSpaceJS
  let (neg, cs) :=
    match cs with
    | '-' :: rest => (true, rest)
    | '+' :: rest => (false, rest)
    | _ => (false, cs)
  let ip := cs.takeWhile Char.isDigit
  let cs := cs.drop ip.length
  let (fp, cs) :=
    match cs with
    | '.' :: rest => (rest.takeWhile Char.isDigit, rest.drop (rest.takeWhile Char.isDigit).length)
    | _ => ([], cs)
  if ip.isEmpty && fp.isEmpty then none
  else
    let mag : ℚ := (digitsToNat ip : ℚ) + (digitsToNat fp : ℚ) / pow10 fp.length
    let expo : Int :=
      match cs with
      | 'e' :: rest => parseExpDigits rest
      | 'E' :: rest => parseExpDigits rest
      | _ => 0
    some ((if neg then -mag else mag) * pow10 expo)

/-! ### PLY data model (THREE.PLYLoader) -/

/-- Value of one record property: a scalar number or a list of numbers
(`none` components are NaN). -/
inductive PValue where
  | num (v : Option ℚ)
  | list (items : List (Option ℚ))
deriving DecidableEq, Repr

/-- Decoded record of one element instance: the property assignments in the
order they were written (`element[name] = value`); a later assignment to the
same key overrides an earlier one. -/
abbrev Record := List (String × PValue)

/-- Reading `element[key]`: the last assignment to `key`, if any. -/
def recGet (r : Record) (key : String) : Option PValue :=
  (r.reverse.find? (fun p => p.1 == key)).map (·.2)

/-- One property declaration of the header (`make_ply_element_property`): the
source stores `type` always, `name` for scalars at token 1, and for `list`
types `countType`/`itemType`/`name` at tokens 1/2/3; absent tokens are
`undefined`, hence `Option`. -/
structure PlyProperty where
  type : Option String
  name : Option String
  countType : Option String := none
  itemType : Option String := none
deriving DecidableEq, Repr

/-- One `element` declaration: name, declared count (`parseInt`, so `none` is
NaN), and its properties in declaration order. -/
structure PlyElement where
  name : Option String
  count : Option Int
  properties : List PlyProperty
deriving DecidableEq, Repr

/-- Parsed header (schema): comments in encounter order, elements in
declaration order, format/version of the `format` line. -/
structure PlyHeader where
  comments : List String := []
  elements : List PlyElement := []
  format : Option String := none
  version : Option String := none
deriving DecidableEq, Repr

/-- A color pushed by `color.setRGB(r, g, b)` (components may be NaN). -/
abbrev ColorT := Option ℚ × Option ℚ × Option ℚ

instance {ε α : Type} [DecidableEq ε] [DecidableEq α] : DecidableEq (Except ε α) :=
  fun a b =>
    match a, b with
    | .ok x, .ok y => if h : x = y then .isTrue (by rw [h]) else .isFalse (by simp [h])
    | .error x, .error y => if h : x = y then .isTrue (by rw [h]) else .isFalse (by simp [h])
    | .ok _, .error _ => .isFalse (by simp)
    | .error _, .ok _ => .isFalse (by simp)

instance decEqOptColorT : DecidableEq (Option ColorT) := inferInstance

instance decEqOptColorT3 : DecidableEq (Option ColorT × Option ColorT × Option ColorT) :=
  inferInstance

/-- The THREE.Geometry fields the PLY decoder touches.  A vertex stores the
three values `element.x/.y/.z` verbatim (each may be a number, a list, or
`undefined`); a face stores the three indices of a `Face3`. -/
structure PlyGeometry where
  vertices : List (Option PValue × Option PValue × Option PValue) := []
  colors : List ColorT := []
  faces : List (Option ℚ × Option ℚ × Option ℚ) := []
  useColor : Bool := false
  faceVertexColors : List (Option ColorT × Option ColorT × Option ColorT) := []
  elementsNeedUpdate : Bool := false
deriving DecidableEq, Repr

/-- Item `i` of a decoded index list, as JavaScript's `list[i]` (out of range
gives `undefined`, which we conflate with NaN as `none`). -/
def idxAt (l : List (Option ℚ)) (i : Nat) : Option ℚ :=
  (l.get? i).join

/-- Channel normalization `element.red / 255.0`: dividing `undefined` or a
list by a number is NaN. -/
def chanDiv (v : Option PValue) (d : ℚ) : Option ℚ :=
  match v with
  | some (.num (some q)) => some (q / d)
  | _ => none

/-- Transcription of `THREE.PLYLoader.handleElement`.  The `face` branch reads
`element.vertex_indices.length`, which throws if the property is missing
(`.error ()`); when the property is a scalar, `length` is `undefined` and both
arity tests are false, so nothing is appended.  A list of length other than
3 or 4 falls through both branches and is dropped without an error. -/
def handleElement (g : PlyGeometry) (elementName : Option String) (el : Record) :
    Except Unit PlyGeometry :=
  if elementName = some "vertex" then
    let g :=
      { g with vertices := g.vertices ++ [(recGet el "x", recGet el "y", recGet el "z")] }
    if (recGet el "red").isSome && (recGet el "green").isSome && (recGet el "blue").isSome then
      .ok { g with
              useColor := true
              colors := g.colors ++
                [(chanDiv (recGet el "red") 255, chanDiv (recGet el "green") 255,
                  chanDiv (recGet el "blue") 255)] }
    else
      .ok g
  else if elementName = some "face" then
    match recGet el "vertex_indices" with
    | none => .error ()
    | some (.num _) => .ok g
    | some (.list l) =>
      if l.length = 3 then
        .ok { g with faces := g.faces ++ [(idxAt l 0, idxAt l 1, idxAt l 2)] }
      else if l.length = 4 then
        .ok { g with faces := g.faces ++
                [(idxAt l 0, idxAt l 1, idxAt l 3), (idxAt l 1, idxAt l 2, idxAt l 3)] }
      else
        .ok g
  else
    .ok g

/-- JavaScript array indexing `colors[i]` with a numeric index `i` that came
from a face: only a non-negative integer index that is in range finds an
entry; a fractional, negative or NaN index yields `undefined`. -/
def colorAt (cs : List ColorT) (q : Option ℚ) : Option ColorT :=
  match q with
  | some v => if v.den = 1 ∧ 0 ≤ v.num then cs.get? v.num.toNat else none
  | none => none

/-- Transcription of `THREE.PLYLoader.postProcess` (the
`computeBoundingSphere` call only fills the `boundingSphere` field, which no
claim mentions, and is not modelled). -/
def postProcess (g : PlyGeometry) : PlyGeometry :=
  if g.useColor then
    { g with
        faceVertexColors := g.faces.map
          (fun f => (colorAt g.colors f.1, colorAt g.colors f.2.1, colorAt g.colors f.2.2))
        elementsNeedUpdate := true }
  else
    g

/-! ### Header parsing (THREE.PLYLoader.parseHeader) -/

/-- A property-name mapping (`setPropertyNameMapping`): an association list
from file names to standard names. -/
abbrev NameMapping := List (String × String)

/-- Application of the name mapping (`if (property.name in propertyNameMapping)
property.name = propertyNameMapping[property.name]`). -/
def applyMapping (m : NameMapping) (n : Option String) : Option String :=
  match n with
  | some s =>
    match m.find? (fun p => p.1 == s) with
    | some p => some p.2
    | none => some s
  | none => none

/-- Transcription of `make_ply_element_property`: token 0 is the type; a
`list` type takes countType/itemType/name from tokens 1/2/3, a scalar type
takes its name from token 1; then the name mapping is applied. -/
def makePlyElementProperty (vals : List String) (m : NameMapping) : PlyProperty :=
  let type := vals.get? 0
  if type = some "list" then
    { type := type
      name := applyMapping m (vals.get? 3)
      countType := vals.get? 1
      itemType := vals.get? 2 }
  else
    { type := type, name := applyMapping m (vals.get? 1) }

/-- Push the element under construction, if any (done when a new `element`
line starts and once at the end of the header). -/
def flushElement (cur : Option PlyElement) (hdr : PlyHeader) : PlyHeader :=
  match cur with
  | some e => { hdr with elements := hdr.elements ++ [e] }
  | none => hdr

/-- Line loop of `parseHeader`: trim, skip blanks, split on whitespace, shift
the directive token, dispatch.  A `property` line before any `element` line
throws in the source (`currentElement.properties` with `currentElement` still
`undefined`), modelled as `.error ()`; unknown directives are only logged. -/
def parseHeaderLoop (m : NameMapping) :
    List String → Option PlyElement → PlyHeader → Except Unit PlyHeader
  | [], cur, hdr => .ok (flushElement cur hdr)
  | l :: rest, cur, hdr =>
    let line := trimJS l
    if line = "" then
      parseHeaderLoop m rest cur hdr
    else
      let toks := splitWsJS line
      let lineType := toks.head?.getD ""
      let vals := toks.tail
      if lineType = "format" then
        parseHeaderLoop m rest cur { hdr with format := vals.get? 0, version := vals.get? 1 }
      else if lineType = "comment" then
        parseHeaderLoop m rest cur
          { hdr with comments := hdr.comments ++ [String.intercalate " " vals] }
      else if lineType = "element" then
        parseHeaderLoop m rest
          (some { name := vals.get? 0
                  count := (vals.get? 1).bind parseIntJS
                  properties := [] })
          (flushElement cur hdr)
      else if lineType = "property" then
        match cur with
        | none => .error ()
        | some e =>
          parseHeaderLoop m rest
            (some { e with properties := e.properties ++ [makePlyElementProperty vals m] })
            hdr
      else
        parseHeaderLoop m rest cur hdr

/-- Does the pattern match the text at position `i`? -/
def matchesAt (pat : List Char) (cs : List Char) (i : Nat) : Bool :=
  (cs.drop i).take pat.length = pat

/-- Positions where `end_header` occurs followed by one whitespace character
(the `end_header\s` part of both header regexes). -/
def endHeaderPositions (cs : List Char) : List Nat :=
  (List.range cs.length).filter
    (fun i => matchesAt "end_header".toList cs i && ((cs.get? (i + 10)).map isSpaceJS).getD false)

/-- Captured group of `/ply([\s\S]*)end_header\s/`: from after the first
`ply` to the last `end_header` the greedy `[\s\S]*` can reach.  No match
leaves the header text empty, as in the source. -/
def headerTextOf (s : String) : String :=
  let cs := s.toList
  let plys := (List.range cs.length).filter (fun i => matchesAt "ply".toList cs i)
  match plys.find? (fun p => (endHeaderPositions cs).any (fun q => p + 3 ≤ q)) with
  | none => ""
  | some p =>
    match ((endHeaderPositions cs).filter (fun q => p + 3 ≤ q)).getLast? with
    | none => ""
    | some q => String.mk ((cs.drop (p + 3)).take (q - (p + 3)))

/-- Captured group of `/end_header\s([\s\S]*)$/` (used by `parseASCII` for the
body): everything after the first `end_header` plus one whitespace
character. -/
def bodyTextOf (s : String) : String :=
  let cs := s.toList
  match (endHeaderPositions cs).head? with
  | none => ""
  | some q => String.mk (cs.drop (q + 11))

/-- Transcription of `THREE.PLYLoader.parseHeader` (minus the `headerLength`
field, which only the binary path consumes and no claim mentions). -/
def parseHeader (m : NameMapping) (data : String) : Except Unit PlyHeader :=
  parseHeaderLoop m (splitNlJS (headerTextOf data)) none {}

/-! ### ASCII body decoding (THREE.PLYLoader.parseASCII) -/

/-- Scalar type names that `parseASCIINumber` sends to `parseInt`. -/
def intTypeNames : List String :=
  ["char", "uchar", "short", "ushort", "int", "uint",
   "int8", "uint8", "int16", "uint16", "int32", "uint32"]

/-- Scalar type names that `parseASCIINumber` sends to `parseFloat`. -/
def floatTypeNames : List String :=
  ["float", "double", "float32", "float64"]

/-- Transcription of `parseASCIINumber`: integer types via `parseInt`, float
types via `parseFloat`; an unrecognized type falls through the switch and
returns `undefined` (and `parseInt(undefined)` is NaN), both `none` here. -/
def parseASCIINumber (tok : Option String) (type : Option String) : Option ℚ :=
  match type with
  | some t =>
    if intTypeNames.contains t then
      (tok.bind parseIntJS).map (fun i => (i : ℚ))
    else if floatTypeNames.contains t then
      tok.bind parseFloatJS
    else
      none
  | none => none

/-- Number of iterations of `for (j = 0; j < n; j++)` when `n` is the decoded
list count: NaN and non-positive counts run zero iterations, a fractional
count behaves like its ceiling. -/
def loopCount (n : Option ℚ) : Nat :=
  match n with
  | none => 0
  | some v => if v ≤ 0 then 0 else v.ceil.toNat

/-- Property loop of `parseASCIIElement` over the token queue (`values`, read
with `shift()`; an exhausted queue yields `undefined` tokens, i.e. NaN
values). -/
def parseElementLoop : List PlyProperty → List String → Record → Record
  | [], _, acc => acc
  | p :: ps, toks, acc =>
    if p.type = some "list" then
      let n := parseASCIINumber toks.head? p.countType
      let cnt := loopCount n
      let items := (List.range cnt).map (fun j => parseASCIINumber (toks.tail.get? j) p.itemType)
      parseElementLoop ps (toks.tail.drop cnt) (acc ++ [(p.name.getD "undefined", .list items)])
    else
      parseElementLoop ps toks.tail
        (acc ++ [(p.name.getD "undefined", .num (parseASCIINumber toks.head? p.type))])

/-- Transcription of `parseASCIIElement`. -/
def parseASCIIElement (props : List PlyProperty) (line : String) : Record :=
  parseElementLoop props (splitWsJS line) []

/-- The advance test `currentElementCount >= header.elements[currentElement].count`
of the body loop: JavaScript comparison with a NaN count is false. -/
def countReached (cnt : Nat) (count : Option Int) : Bool :=
  match count with
  | none => false
  | some k => decide (k ≤ (cnt : Int))

/-- Line loop of `parseASCII` over the body, also returning the trace of
records in the order they were handed to `handleElement`, tagged with the
owning element's name.  Reading `header.elements[currentElement]` past the
end of `elements` throws in the source (`.count` of `undefined`), modelled as
`.error ()`.  Note the element cursor advances at most once per line, and
nothing stops the loop when the body has fewer lines than the declared
counts — the loop simply ends. -/
def parseBodyLoop (els : List PlyElement) :
    List String → Nat → Nat → PlyGeometry →
    Except Unit (PlyGeometry × List (Option String × Record))
  | [], _, _, g => .ok (g, [])
  | l :: rest, cur, cnt, g =>
    let line := trimJS l
    if line = "" then
      parseBodyLoop els rest cur cnt g
    else
      match els.get? cur with
      | none => .error ()
      | some el0 =>
        let adv : Bool := countReached cnt el0.count
        let cur' := if adv then cur + 1 else cur
        let cnt0 := if adv then 0 else cnt
        match els.get? cur' with
        | none => .error ()
        | some el =>
          let r := parseASCIIElement el.properties line
          match handleElement g el.name r with
          | .error e => .error e
          | .ok g' =>
            match parseBodyLoop els rest cur' (cnt0 + 1) g' with
            | .error e => .error e
            | .ok (gf, tr) => .ok (gf, (el.name, r) :: tr)

/-- Transcription of `THREE.PLYLoader.parseASCII`, with the record trace
carried alongside the produced geometry. -/
def parseASCII (m : NameMapping) (data : String) :
    Except Unit (PlyGeometry × List (Option String × Record)) :=
  match parseHeader m data with
  | .error e => .error e
  | .ok hdr =>
    match parseBodyLoop hdr.elements (splitNlJS (bodyTextOf data)) 0 0 {} with
    | .error e => .error e
    | .ok (g, tr) => .ok (postProcess g, tr)

/-! ### Byte-buffer primitives (DataView) -/

/-- Byte at index `i` of a buffer (only read through the bounds-checked
accessors below, which mirror DataView's RangeError on out-of-bounds
access). -/
def byteAt (data : List Nat) (i : Nat) : Nat :=
  data.getD i 0

/-- DataView `getUint8`: bounds-checked single byte. -/
def getUint8 (data : List Nat) (off : Nat) : Option Nat :=
  if off + 1 ≤ data.length then some (byteAt data off) else none

/-- Unchecked little-endian 16-bit value at `off` (the arithmetic content of
`getUint16(off, true)`). -/
def u16le (data : List Nat) (off : Nat) : Nat :=
  byteAt data off + 256 * byteAt data (off + 1)

/-- DataView `getUint16(off, true)`. -/
def getUint16le (data : List Nat) (off : Nat) : Option Nat :=
  if off + 2 ≤ data.length then some (u16le data off) else none

/-- Unchecked little-endian 32-bit value at `off`. -/
def u32le (data : List Nat) (off : Nat) : Nat :=
  byteAt data off + 256 * byteAt data (off + 1) + 65536 * byteAt data (off + 2) +
    16777216 * byteAt data (off + 3)

/-- DataView `getUint32(off, true)`. -/
def getUint32le (data : List Nat) (off : Nat) : Option Nat :=
  if off + 4 ≤ data.length then some (u32le data off) else none

/-- Unchecked big-endian 32-bit value at `off`. -/
def u32be (data : List Nat) (off : Nat) : Nat :=
  16777216 * byteAt data off + 65536 * byteAt data (off + 1) + 256 * byteAt data (off + 2) +
    byteAt data (off + 3)

/-- DataView `getUint32(off, false)`. -/
def getUint32be (data : List Nat) (off : Nat) : Option Nat :=
  if off + 4 ≤ data.length then some (u32be data off) else none

/-! ### DataView polyfill: float reads (the repository's fallback Byte View) -/

/-- A JavaScript number as produced by the float decoders: NaN, a signed
infinity, or a finite value (exact, as a rational). -/
inductive FP where
  | nan
  | inf (neg : Bool)
  | fin (q : ℚ)
deriving DecidableEq, Repr

/-- Transcription of the polyfill's `_getBytes(length, byteOffset,
littleEndian)` on an array-like buffer: bounds check, slice, and a reversal
when big-endian order is requested (the source skips the reversal for
`length <= 1`, where it is the identity anyway). -/
def dvGetBytes (data : List Nat) (len off : Nat) (le : Bool) : Option (List Nat) :=
  if off + len ≤ data.length then
    some (if le then (data.drop off).take len else ((data.drop off).take len).reverse)
  else
    none

/-- Bit-field extraction of the polyfill's `getFloat64` from the 8 bytes
`_getBytes` returned (`b[0]` least significant in the extraction).  JavaScript
operator model: `x >> k` is `x / 2^k`, `x & 0xff` is `x % 256`, `x << k` is
`x * 2^k` (all operands stay far below 2^31 here), `|` is `Nat.lor`;
`1 - 2 * (b[7] >> 7)` is computed in `Int`. -/
def decodeF64 (b : List Nat) : FP :=
  let b0 := byteAt b 0
  let b1 := byteAt b 1
  let b2 := byteAt b 2
  let b3 := byteAt b 3
  let b4 := byteAt b 4
  let b5 := byteAt b 5
  let b6 := byteAt b 6
  let b7 := byteAt b 7
  let sgn : Int := 1 - 2 * (b7 / 128 : Nat)
  let expo : Int := ((((b7 * 2 % 256) * 8).lor (b6 / 16) : Nat) : Int) - 1023
  let mant : Nat :=
    (b6 % 16) * 2 ^ 48 + b5 * 2 ^ 40 + b4 * 2 ^ 32 + b3 * 2 ^ 24 + b2 * 2 ^ 16 +
      b1 * 2 ^ 8 + b0
  if expo = 1024 then
    if mant ≠ 0 then .nan else .inf (decide (sgn < 0))
  else if expo = -1023 then
    .fin ((sgn : ℚ) * (mant : ℚ) * pow2 ((-1022 : Int) - 52))
  else
    .fin ((sgn : ℚ) * (1 + (mant : ℚ) * pow2 (-52)) * pow2 expo)

/-- Bit-field extraction of the polyfill's `getFloat32` from the 4 bytes
`_getBytes` returned. -/
def decodeF32 (b : List Nat) : FP :=
  let b0 := byteAt b 0
  let b1 := byteAt b 1
  let b2 := byteAt b 2
  let b3 := byteAt b 3
  let sgn : Int := 1 - 2 * (b3 / 128 : Nat)
  let expo : Int := (((b3 * 2 % 256).lor (b2 / 128) : Nat) : Int) - 127
  let mant : Nat := ((b2 % 128) * 2 ^ 16).lor ((b1 * 2 ^ 8).lor b0)
  if expo = 128 then
    if mant ≠ 0 then .nan else .inf (decide (sgn < 0))
  else if expo = -127 then
    .fin ((sgn : ℚ) * (mant : ℚ) * pow2 ((-126 : Int) - 23))
  else
    .fin ((sgn : ℚ) * (1 + (mant : ℚ) * pow2 (-23)) * pow2 expo)

/-- Transcription of the polyfill's `getFloat64(byteOffset, littleEndian)`. -/
def getFloat64 (data : List Nat) (off : Nat) (le : Bool) : Option FP :=
  (dvGetBytes data 8 off le).map decodeF64

/-- Transcription of the polyfill's `getFloat32(byteOffset, littleEndian)`. -/
def getFloat32 (data : List Nat) (off : Nat) (le : Bool) : Option FP :=
  (dvGetBytes data 4 off le).map decodeF32

/-- The 64-bit pattern stored by a byte list, first byte least significant
(little-endian storage order). -/
def natFromBytesLE : List Nat → Nat
  | [] => 0
  | b :: rest => b + 256 * natFromBytesLE rest

/-- Sign bit of a 64-bit pattern (bit 63). -/
def sign64 (bits : Nat) : Nat :=
  bits / 2 ^ 63 % 2

/-- Biased exponent field of a 64-bit pattern (bits 62–52). -/
def expField64 (bits : Nat) : Nat :=
  bits / 2 ^ 52 % 2 ^ 11

/-- Trailing-significand field of a 64-bit pattern (bits 51–0). -/
def mantissa64 (bits : Nat) : Nat :=
  bits % 2 ^ 52

/-- Reference semantics: the value encoded by a 64-bit pattern under IEEE-754
binary64 — all-ones exponent encodes NaN/infinity, zero exponent subnormals
(`m * 2^-1074`), anything else a normal number `(2^52 + m) * 2^(e - 1075)`
(= `1.m * 2^(e - 1023)`). -/
def ieee64 (bits : Nat) : FP :=
  if expField64 bits = 2047 then
    if mantissa64 bits ≠ 0 then .nan else .inf (sign64 bits = 1)
  else if expField64 bits = 0 then
    .fin ((if sign64 bits = 1 then -1 else 1 : ℚ) * (mantissa64 bits : ℚ) * pow2 (-1074))
  else
    .fin ((if sign64 bits = 1 then -1 else 1 : ℚ) * ((2 ^ 52 + mantissa64 bits : Nat) : ℚ) *
      pow2 ((expField64 bits : Int) - 1075))

/-- Sign bit of a 32-bit pattern (bit 31). -/
def sign32 (bits : Nat) : Nat :=
  bits / 2 ^ 31 % 2

/-- Biased exponent field of a 32-bit pattern (bits 30–23). -/
def expField32 (bits : Nat) : Nat :=
  bits / 2 ^ 23 % 2 ^ 8

/-- Trailing-significand field of a 32-bit pattern (bits 22–0). -/
def mantissa32 (bits : Nat) : Nat :=
  bits % 2 ^ 23

/-- Reference semantics: the value encoded by a 32-bit pattern under IEEE-754
binary32. -/
def ieee32 (bits : Nat) : FP :=
  if expField32 bits = 255 then
    if mantissa32 bits ≠ 0 then .nan else .inf (sign32 bits = 1)
  else if expField32 bits = 0 then
    .fin ((if sign32 bits = 1 then -1 else 1 : ℚ) * (mantissa32 bits : ℚ) * pow2 (-149))
  else
    .fin ((if sign32 bits = 1 then -1 else 1 : ℚ) * ((2 ^ 23 + mantissa32 bits : Nat) : ℚ) *
      pow2 ((expField32 bits : Int) - 150))

/-! ### STL decoder (THREE.STLLoader) -/

/-- Transcription of the `isBinary` closure of `THREE.STLLoader.parse`: read
the little-endian uint32 at byte offset 80 as the face count, compare the
buffer length with `80 + 4 + 50 * count`; on mismatch fall back to scanning
for any byte above 127.  `none` models the RangeError a buffer shorter than
84 bytes throws on the `getUint32(80)` read. -/
def stlIsBinary (data : List Nat) : Option Bool :=
  match getUint32le data 80 with
  | none => none
  | some nFaces =>
    let expect := 80 + 4 + nFaces * 50
    if expect = data.length then
      some true
    else
      some (data.any (fun b => 127 < b))

/-- Does the header carry the `COLOR=` signature at position `i`?  The source
tests `getUint32(index, false) == 0x434F4C4F` (`COLO`, big-endian) plus bytes
`0x52` (`R`) and `0x3D` (`=`) at `index+4`/`index+5`. -/
def colorSigAt (data : List Nat) (i : Nat) : Bool :=
  getUint32be data i = some 0x434F4C4F && getUint8 data (i + 4) = some 0x52 &&
    getUint8 data (i + 5) = some 0x3D

/-- The last `i < 70` carrying the `COLOR=` signature (the source's scan
`for (index = 0; index < 80 - 10; index++)` overwrites the default color on
every match, so the last one wins; any match sets `hasColors`). -/
def lastColorSig (data : List Nat) : Option Nat :=
  (((List.range 70).filter (colorSigAt data)).getLast?)

/-- Default color of the header extension: for the last `COLOR=` signature
position, bytes `i+6 .. i+8` each divided by 255 (R, G, B); `none` when no
signature was found, in which case the record loop never reads the packed
color.  For any `i` the scan can produce, these reads are within the 80-byte
header. -/
def stlDefaults (data : List Nat) : Option (ℚ × ℚ × ℚ) :=
  (lastColorSig data).map (fun i =>
    ((byteAt data (i + 6) : ℚ) / 255, (byteAt data (i + 7) : ℚ) / 255,
     (byteAt data (i + 8) : ℚ) / 255))

/-- One decoded 50-byte triangle record of the binary STL body. -/
structure STLFaceRec where
  normal : FP × FP × FP
  v1 : FP × FP × FP
  v2 : FP × FP × FP
  v3 : FP × FP × FP
  color : Option (ℚ × ℚ × ℚ)
deriving DecidableEq, Repr

/-- Monadic map over a list, failing when any element fails (the shape of the
source's sequential read loops, where any out-of-bounds read aborts the
decode). -/
def optMap {α β : Type} (f : α → Option β) : List α → Option (List β)
  | [] => some []
  | a :: l =>
    match f a with
    | none => none
    | some b =>
      match optMap f l with
      | none => none
      | some bs => some (b :: bs)

/-- Read one float32 vertex (3 reads) at `start`. -/
def stlReadVec3 (data : List Nat) (start : Nat) : Option (FP × FP × FP) :=
  match getFloat32 data start true, getFloat32 data (start + 4) true,
      getFloat32 data (start + 8) true with
  | some x, some y, some z => some (x, y, z)
  | _, _, _ => none

/-- Packed-color handling inside the record loop of
`THREE.STLLoader.parseBinary`: only when the color extension was detected
(`defaults` present) is the uint16 at `start + 48` read; bit 15 clear takes
the three 5-bit fields (each `/31`), bit 15 set falls back to the header
default color. -/
def stlFaceColor (data : List Nat) (defaults : Option (ℚ × ℚ × ℚ)) (start : Nat) :
    Option (Option (ℚ × ℚ × ℚ)) :=
  match defaults with
  | none => some none
  | some (dr, dg, db) =>
    match getUint16le data (start + 48) with
    | none => none
    | some packed =>
      if packed.land 0x8000 = 0 then
        some (some (((packed.land 0x1F : Nat) : ℚ) / 31,
          (((packed.shiftRight 5).land 0x1F : Nat) : ℚ) / 31,
          (((packed.shiftRight 10).land 0x1F : Nat) : ℚ) / 31))
      else
        some (some (dr, dg, db))

/-- Decode the triangle record of face number `face` (record layout of
`THREE.STLLoader.parseBinary`: `start = 84 + face * 50`; normal at `start`,
vertices at `start + i*12` for `i = 1, 2, 3`; packed color via
`stlFaceColor`). -/
def stlReadFace (data : List Nat) (defaults : Option (ℚ × ℚ × ℚ)) (face : Nat) :
    Option STLFaceRec :=
  match stlReadVec3 data (84 + face * 50) with
  | none => none
  | some normal =>
    match stlFaceColor data defaults (84 + face * 50) with
    | none => none
    | some color =>
      match stlReadVec3 data (84 + face * 50 + 12), stlReadVec3 data (84 + face * 50 + 24),
          stlReadVec3 data (84 + face * 50 + 36) with
      | some v1, some v2, some v3 =>
        some { normal := normal, v1 := v1, v2 := v2, v3 := v3, color := color }
      | _, _, _ => none

/-- The BufferGeometry fields `THREE.STLLoader.parseBinary` fills: flat
position/normal streams (three vertices per face, the face normal replicated
onto each), and, when the header color extension was detected, a parallel
color stream and the header alpha. -/
structure STLGeometry where
  vertices : List (FP × FP × FP)
  normals : List (FP × FP × FP)
  hasColors : Bool
  colors : Option (List (ℚ × ℚ × ℚ))
  alpha : Option ℚ
deriving DecidableEq, Repr

/-- Transcription of `THREE.STLLoader.parseBinary`: face count from the
little-endian uint32 at byte offset 80, `COLOR=` scan over the header
(`lastColorSig` / `stlDefaults`), then one 50-byte record per face.  (When a
record's `color` is `none` while the extension was detected — impossible,
since `stlFaceColor` then always produces `some` — the assembly contributes
nothing for that face.) -/
def stlParseBinary (data : List Nat) : Option STLGeometry :=
  match getUint32le data 80 with
  | none => none
  | some faces =>
    match optMap (stlReadFace data (stlDefaults data)) (List.range faces) with
    | none => none
    | some recs =>
      some
        { vertices := recs.flatMap (fun r => [r.v1, r.v2, r.v3])
          normals := recs.flatMap (fun r => [r.normal, r.normal, r.normal])
          hasColors := (lastColorSig data).isSome
          colors := (lastColorSig data).map (fun _ => recs.flatMap (fun r =>
            match r.color with
            | some c => [c, c, c]
            | none => []))
          alpha := (lastColorSig data).map (fun i => (byteAt data (i + 9) : ℚ) / 255) }


/-! ### Spec-side definitions and concrete inputs used by the claims -/

/-- Spec-side reading of the comment directive (amended form): for each line
whose first whitespace token is `comment`, the remaining tokens joined by
single spaces, in encounter order. -/
def extractComments (lines : List String) : List String :=
  lines.filterMap (fun l =>
    let toks := splitWsJS (trimJS l)
    if toks.head? = some "comment" then some (String.intercalate " " toks.tail) else none)

/-- Does a record carry all three color channels (the `'red' in element &&
'green' in element && 'blue' in element` test)? -/
def hasRGB (r : Record) : Bool :=
  (recGet r "red").isSome && (recGet r "green").isSome && (recGet r "blue").isSome

/-- Trace entries that are vertex records carrying all three channels. -/
def isColoredVertexRec (p : Option String × Record) : Bool :=
  p.1 == some "vertex" && hasRGB p.2

/-- Number of non-blank lines of a body (lines that survive the
`line.trim() === "" continue` filter). -/
def countNonblank (lines : List String) : Nat :=
  lines.countP (fun l => !(trimJS l == ""))

/-- PLY ASCII input whose header declares 2 vertices but whose body has only
1 line (claim C3). -/
def shortBodyInput : String :=
  "ply\nformat ascii 1.0\nelement vertex 2\nproperty float x\nproperty float y\nproperty float z\nend_header\n0 0 0\n"

/-- PLY ASCII input with a 5-index face (claim C4). -/
def fiveFaceInput : String :=
  "ply\nformat ascii 1.0\nelement vertex 3\nproperty float x\nproperty float y\nproperty float z\nelement face 1\nproperty list uchar int vertex_indices\nend_header\n0 0 0\n0 0 0\n0 0 0\n5 0 1 2 3 4\n"

/-- PLY ASCII input whose vertex element declares a count of 0, so the body
holds no vertex records at all (claim C5). -/
def zeroVertexInput : String :=
  "ply\nformat ascii 1.0\nelement vertex 0\nend_header\n"

/-- PLY input whose single comment contains a run of two spaces
(claim C9). -/
def doubleSpaceCommentInput : String :=
  "ply\nformat ascii 1.0\ncomment a  b\nend_header\n"

/-- PLY ASCII input with two elements both named `vertex`: the first one's
records carry red/green/blue, the second one's do not (claim C5). -/
def mixedVertexInput : String :=
  "ply\nformat ascii 1.0\nelement vertex 1\nproperty float x\nproperty float y\nproperty float z\nproperty uchar red\nproperty uchar green\nproperty uchar blue\nelement vertex 1\nproperty float x\nproperty float y\nproperty float z\nend_header\n0 0 0 255 0 0\n0 0 0\n"

/-- Binary STL buffer: header starting with `COLOR=` and default color bytes
255, 0, 0, 255; face count 1; one 50-byte record whose packed color has bit
15 set (claim C6). -/
def stlColorBuf : List Nat :=
  [0x43, 0x4F, 0x4C, 0x4F, 0x52, 0x3D, 255, 0, 0, 255] ++ List.replicate 70 0 ++
    [1, 0, 0, 0] ++ List.replicate 48 0 ++ [0x00, 0x80]

/-- Binary STL buffer whose bytes 76–79 hold the value 2 while bytes 80–83
hold the value 1, with exactly one 50-byte record after the count
(claim C7). -/
def stlCountBuf : List Nat :=
  List.replicate 76 0 ++ [2, 0, 0, 0] ++ [1, 0, 0, 0] ++ List.replicate 50 0

/-! ### General helper lemmas -/

theorem pow2_eq_zpow (k : Int) : pow2 k = (2 : ℚ) ^ k := by
  unfold pow2
  split
  · rename_i h
    push_cast
    rw [← zpow_natCast]
    congr 1
    omega
  · rename_i h
    push_cast
    rw [← zpow_natCast, one_div, ← zpow_neg]
    congr 1
    omega

theorem lor_as_add (k u v : Nat) (hv : v < 2 ^ k) : (2 ^ k * u).lor v = 2 ^ k * u + v :=
  (Nat.mul_add_lt_is_or hv u).symm

theorem take_drop_mem {data : List Nat} {n off : Nat} {b : Nat}
    (hb : b ∈ (data.drop off).take n) : b ∈ data :=
  List.mem_of_mem_drop (List.mem_of_mem_take hb)

theorem optMap_length {α β : Type} (f : α → Option β) :
    ∀ (l : List α) (ys : List β), optMap f l = some ys → ys.length = l.length
  | [], ys, h => by
    unfold optMap at h
    injection h with h
    subst h
    rfl
  | a :: l, ys, h => by
    unfold optMap at h
    split at h
    · cases h
    · split at h
      · cases h
      · rename_i b hb bs hbs
        injection h with h
        subst h
        simp [optMap_length f l bs hbs]

theorem optMap_flatMap {α β γ : Type} (f : α → Option β) (F : β → List γ) (G : α → List γ)
    (hFG : ∀ x y, f x = some y → F y = G x) :
    ∀ (l : List α) (ys : List β), optMap f l = some ys → ys.flatMap F = l.flatMap G
  | [], ys, h => by
    unfold optMap at h
    injection h with h
    subst h
    rfl
  | a :: l, ys, h => by
    unfold optMap at h
    split at h
    · cases h
    · rename_i b hb
      split at h
      · cases h
      · rename_i bs hbs
        injection h with h
        subst h
        simp only [List.flatMap_cons]
        rw [hFG a b hb, optMap_flatMap f F G hFG l bs hbs]

theorem flatMap_three_length {β γ : Type} (a b c : β → γ) :
    ∀ ys : List β, (ys.flatMap (fun r => [a r, b r, c r])).length = 3 * ys.length
  | [] => rfl
  | y :: ys => by
    simp [flatMap_three_length a b c ys]
    ring

/-! ### Claim C10 — vertex positions come from x, y, z -/

/-- C10: for every record handled as a `vertex` element, the position appended
to the mesh is exactly the triple of the record's `x`, `y` and `z`
properties (after name mapping — `recGet` reads the mapped record), in that
order; since the appended triple is built from those three lookups alone, no
other property of the record contributes to it. -/
theorem ply_vertex_position_from_xyz (g : PlyGeometry) (el : Record) :
    (handleElement g (some "vertex") el).map PlyGeometry.vertices =
      .ok (g.vertices ++ [(recGet el "x", recGet el "y", recGet el "z")]) := by
  unfold handleElement
  rw [if_pos rfl]
  split <;> simp [Except.map]

/-! ### Claim C2 — quad fan split -/

/-- C2: a face record whose `vertex_indices` list has length 4, say
`[i0, i1, i2, i3]`, appends exactly the triangles `(i0, i1, i3)` and
`(i1, i2, i3)` in that order; a list of length 3 appends exactly
`(i0, i1, i2)`. -/
theorem ply_face_triangulation (g : PlyGeometry) (el : Record) (i0 i1 i2 i3 : Option ℚ) :
    (recGet el "vertex_indices" = some (.list [i0, i1, i2, i3]) →
      (handleElement g (some "face") el).map PlyGeometry.faces =
        .ok (g.faces ++ [(i0, i1, i3), (i1, i2, i3)])) ∧
    (recGet el "vertex_indices" = some (.list [i0, i1, i2]) →
      (handleElement g (some "face") el).map PlyGeometry.faces =
        .ok (g.faces ++ [(i0, i1, i2)])) := by
  constructor <;> intro h <;> simp [handleElement, h, idxAt, Except.map]

/-- Witness for C2 at concrete quad and triangle records. -/
theorem ply_face_triangulation_witness :
    (handleElement {} (some "face")
        [("vertex_indices", .list [some 0, some 1, some 2, some 3])]).map PlyGeometry.faces =
      .ok [(some 0, some 1, some 3), (some 1, some 2, some 3)] ∧
    (handleElement {} (some "face")
        [("vertex_indices", .list [some 0, some 1, some 2])]).map PlyGeometry.faces =
      .ok [(some 0, some 1, some 2)] :=
  ⟨(ply_face_triangulation {} _ (some 0) (some 1) (some 2) (some 3)).1 (by decide),
   (ply_face_triangulation {} _ (some 0) (some 1) (some 2) (some 3)).2 (by decide)⟩

/-! ### Claim C4 — 5-index faces are silently dropped, not an error -/

/-- C4 counterexample: decoding a PLY file with a 5-index face returns a mesh
(no error of any kind) whose face list is empty — the face was silently
dropped, contradicting the claim that decoding fails with
UnsupportedFaceArity. -/
theorem ply_five_index_face_silently_dropped :
    (parseASCII [] fiveFaceInput).map (fun gt => (gt.1.faces, gt.1.vertices.length)) =
      .ok ([], 3) := by
  with_unfolding_all decide

/-- C4 amended: a face record whose index list has a length other than 3 or 4
leaves the geometry unchanged and raises no error. -/
theorem ply_face_other_arity_dropped (g : PlyGeometry) (el : Record) (l : List (Option ℚ))
    (h : recGet el "vertex_indices" = some (.list l))
    (h3 : l.length ≠ 3) (h4 : l.length ≠ 4) :
    handleElement g (some "face") el = .ok g := by
  simp [handleElement, h, h3, h4]

/-- Witness for the amended C4 at a concrete 5-index record. -/
theorem ply_face_other_arity_dropped_witness :
    handleElement {} (some "face")
      [("vertex_indices", .list [some 0, some 1, some 2, some 3, some 4])] = .ok {} :=
  ply_face_other_arity_dropped {} _ [some 0, some 1, some 2, some 3, some 4]
    (by decide) (by decide) (by decide)

/-! ### Claim C1 — STL binary/ASCII classification heuristic -/

/-- C1: for every buffer long enough for the count read at offset 80 (the
source throws a RangeError below 84 bytes), the decoder classifies the buffer
as binary exactly when its length equals `84 + 50 * n` for the little-endian
uint32 `n` at offset 80, or, that size check failing, when some byte exceeds
127; otherwise it classifies the buffer as ASCII. -/
theorem stl_isBinary_classification (data : List Nat) (h : 84 ≤ data.length) :
    (stlIsBinary data = some true ↔
      (data.length = 84 + 50 * u32le data 80 ∨
        (data.length ≠ 84 + 50 * u32le data 80 ∧ ∃ b ∈ data, 127 < b))) ∧
    (stlIsBinary data = some false ↔
      (data.length ≠ 84 + 50 * u32le data 80 ∧ ∀ b ∈ data, b ≤ 127)) := by
  have harith : 80 + 4 + u32le data 80 * 50 = 84 + 50 * u32le data 80 := by ring
  unfold stlIsBinary getUint32le
  rw [if_pos (by omega)]
  by_cases he : 84 + 50 * u32le data 80 = data.length
  · simp [harith, he]
  · have he' : data.length ≠ 84 + 50 * u32le data 80 := fun hx => he hx.symm
    simp [harith, he, he', List.any_eq_true, List.any_eq_false, not_lt]

/-- Witness for C1 at an 84-byte all-zero buffer (declared count 0, so the
size check matches and the buffer is classified binary). -/
theorem stl_isBinary_classification_witness :
    84 ≤ (List.replicate 84 0 : List Nat).length ∧
      (stlIsBinary (List.replicate 84 0) = some true ↔
        ((List.replicate 84 0 : List Nat).length =
            84 + 50 * u32le (List.replicate 84 0) 80 ∨
          ((List.replicate 84 0 : List Nat).length ≠
              84 + 50 * u32le (List.replicate 84 0) 80 ∧
            ∃ b ∈ (List.replicate 84 0 : List Nat), 127 < b))) :=
  ⟨by decide, (stl_isBinary_classification (List.replicate 84 0) (by decide)).1⟩

/-! ### Claim C3 — short bodies decode partially, no truncation error -/

theorem handleElement_vertex_ok (g : PlyGeometry) (r : Record) :
    ∃ g', handleElement g (some "vertex") r = .ok g' ∧
      g'.vertices.length = g.vertices.length + 1 := by
  unfold handleElement
  rw [if_pos rfl]
  split
  · exact ⟨_, rfl, by simp⟩
  · exact ⟨_, rfl, by simp⟩

theorem parseBody_vertex_short_aux (props : List PlyProperty) (n : Nat) :
    ∀ (lines : List String) (cnt : Nat) (g : PlyGeometry),
      cnt + countNonblank lines ≤ n →
      (parseBodyLoop [⟨some "vertex", some (n : Int), props⟩] lines 0 cnt g).map
        (fun p => p.1.vertices.length) = .ok (g.vertices.length + countNonblank lines)
  | [], cnt, g, _ => by simp [parseBodyLoop, countNonblank, Except.map]
  | l :: rest, cnt, g, h => by
    by_cases hbl : trimJS l = ""
    · have hcnb : countNonblank (l :: rest) = countNonblank rest := by
        simp [countNonblank, List.countP_cons, hbl]
      rw [hcnb] at h ⊢
      unfold parseBodyLoop
      rw [if_pos hbl]
      exact parseBody_vertex_short_aux props n rest cnt g h
    · have hcnb : countNonblank (l :: rest) = countNonblank rest + 1 := by
        simp [countNonblank, List.countP_cons, hbl]
      rw [hcnb] at h
      have hlt : ¬ ((n : Int) ≤ (cnt : Int)) := by
        omega
      obtain ⟨g', hg', hlen⟩ :=
        handleElement_vertex_ok g (parseASCIIElement props (trimJS l))
      have hrec :=
        parseBody_vertex_short_aux props n rest (cnt + 1) g' (by omega)
      unfold parseBodyLoop
      rw [if_neg hbl]
      simp only [List.get?_cons_zero, countReached, decide_eq_false hlt, Bool.false_eq_true,
        if_false, hg']
      rcases hres : parseBodyLoop [⟨some "vertex", some (n : Int), props⟩] rest 0 (cnt + 1) g'
        with e | ⟨gf, tr⟩
      · rw [hres] at hrec
        simp [Except.map] at hrec
      · rw [hres] at hrec
        simp only [Except.map] at hrec ⊢
        rw [hcnb]
        injection hrec with hrec
        exact congrArg Except.ok (by omega)

/-- C3 counterexample: a PLY ASCII input declaring 2 vertices whose body has
only 1 line decodes without any error to a mesh holding that 1 vertex — no
truncated-input error exists in the code. -/
theorem ply_short_body_returns_mesh :
    (parseASCII [] shortBodyInput).map (fun gt => gt.1.vertices.length) = .ok 1 := by
  with_unfolding_all decide

/-- C3 amended: for a header declaring one `vertex` element of count `n`, a
body with at most `n` non-blank lines decodes without error to a geometry
holding exactly one vertex per non-blank line — the loop simply stops when
the lines run out. -/
theorem ply_short_body_partial_decode (props : List PlyProperty) (n : Nat)
    (lines : List String) (h : countNonblank lines ≤ n) :
    (parseBodyLoop [⟨some "vertex", some (n : Int), props⟩] lines 0 0 {}).map
      (fun p => p.1.vertices.length) = .ok (countNonblank lines) := by
  simpa using parseBody_vertex_short_aux props n lines 0 {} (by omega)

/-- Witness for the amended C3: 1 body line against a declared count of 2. -/
theorem ply_short_body_partial_decode_witness :
    countNonblank ["0 0 0"] ≤ 2 ∧
      (parseBodyLoop [⟨some "vertex", some (2 : Int),
          [⟨some "float", some "x", none, none⟩, ⟨some "float", some "y", none, none⟩,
           ⟨some "float", some "z", none, none⟩]⟩] ["0 0 0"] 0 0 {}).map
        (fun p => p.1.vertices.length) = .ok (countNonblank ["0 0 0"]) :=
  ⟨by decide, ply_short_body_partial_decode _ 2 ["0 0 0"] (by decide)⟩

/-! ### Claim C5 — color presence is not all-or-nothing -/

theorem handleElement_color_effect (g : PlyGeometry) (name : Option String) (r : Record)
    (g' : PlyGeometry) (h : handleElement g name r = .ok g') :
    g'.useColor = (g.useColor || (name == some "vertex" && hasRGB r)) ∧
    g'.colors.length =
      g.colors.length + (if name == some "vertex" && hasRGB r then 1 else 0) := by
  unfold handleElement at h
  split at h
  case isTrue hv =>
    subst hv
    split at h <;> injection h with h <;> subst h <;> simp_all [hasRGB]
  case isFalse hv =>
    have hb : (name == some "vertex") = false := by simpa using hv
    split at h
    case isTrue hf =>
      split at h
      · cases h
      · injection h with h
        subst h
        simp [hb]
      · split at h
        · injection h with h
          subst h
          simp [hb]
        · split at h <;> injection h with h <;> subst h <;> simp [hb]
    case isFalse hf =>
      injection h with h
      subst h
      simp [hb]

theorem postProcess_preserves (g : PlyGeometry) :
    (postProcess g).useColor = g.useColor ∧ (postProcess g).colors = g.colors ∧
      (postProcess g).vertices = g.vertices ∧ (postProcess g).faces = g.faces := by
  unfold postProcess
  split <;> simp

theorem parseBodyLoop_color_inv (els : List PlyElement) :
    ∀ (lines : List String) (cur cnt : Nat) (g gf : PlyGeometry)
      (tr : List (Option String × Record)),
      parseBodyLoop els lines cur cnt g = .ok (gf, tr) →
      gf.useColor = (g.useColor || tr.any isColoredVertexRec) ∧
      gf.colors.length = g.colors.length + (tr.filter isColoredVertexRec).length
  | [], cur, cnt, g, gf, tr, h => by
    unfold parseBodyLoop at h
    injection h with h
    injection h with h1 h2
    subst h1
    subst h2
    simp
  | l :: rest, cur, cnt, g, gf, tr, h => by
    unfold parseBodyLoop at h
    by_cases hbl : trimJS l = ""
    · rw [if_pos hbl] at h
      exact parseBodyLoop_color_inv els rest cur cnt g gf tr h
    · rw [if_neg hbl] at h
      split at h
      · cases h
      · rename_i el0 hel0
        dsimp only at h
        split at h
        · cases h
        · rename_i el hel
          split at h
          · cases h
          · rename_i g' h2
            split at h
            · cases h
            · rename_i p gf' tr' h3
              injection h with h
              injection h with hA hB
              subst hA
              subst hB
              have hrec := parseBodyLoop_color_inv els rest _ _ g' gf' tr' h3
              have heff := handleElement_color_effect g el.name
                (parseASCIIElement el.properties (trimJS l)) g' h2
              constructor
              · rw [hrec.1, heff.1, List.any_cons]
                simp [isColoredVertexRec, Bool.or_assoc]
              · rw [hrec.2, heff.2, List.filter_cons]
                simp only [isColoredVertexRec]
                split <;> simp
                omega

/-- C5 counterexample: a decode with two elements named `vertex`, the first
colored, the second not.  All-or-nothing fails: the trace contains a vertex
record missing the channels (the `all` flag is false), yet the mesh is
marked colored and one color entry was pushed for 2 vertices. -/
theorem ply_color_not_all_or_nothing :
    (parseASCII [] mixedVertexInput).map (fun gt =>
      (gt.1.useColor, gt.1.colors.length, gt.1.vertices.length,
        gt.2.all (fun p => !(p.1 == some "vertex") || hasRGB p.2))) =
      .ok (true, 1, 2, false) := by
  with_unfolding_all decide

/-- C5 amended: the produced mesh is marked colored exactly when SOME decoded
vertex record carries all three channels, and one color entry is appended for
exactly those vertex records that do (so the color list is parallel to the
vertex list only when every vertex record is colored). -/
theorem ply_color_flag_existential (m : NameMapping) (data : String) (g : PlyGeometry)
    (tr : List (Option String × Record)) (h : parseASCII m data = .ok (g, tr)) :
    (g.useColor = true ↔ ∃ p ∈ tr, isColoredVertexRec p = true) ∧
    g.colors.length = (tr.filter isColoredVertexRec).length := by
  unfold parseASCII at h
  split at h
  · cases h
  · split at h
    · cases h
    · rename_i hdr hhdr p g0 tr0 hbody
      injection h with h
      injection h with hA hB
      subst hA
      subst hB
      have hinv := parseBodyLoop_color_inv hdr.elements _ _ _ _ _ _ hbody
      have hpp := postProcess_preserves g0
      constructor
      · rw [hpp.1, hinv.1]
        simp [List.any_eq_true]
      · rw [hpp.2.1, hinv.2]
        simp

/-- Witness for the amended C5 at a decode with no vertex records at all. -/
theorem ply_color_flag_existential_witness :
    (({} : PlyGeometry).useColor = true ↔
      ∃ p ∈ ([] : List (Option String × Record)), isColoredVertexRec p = true) ∧
    ({} : PlyGeometry).colors.length =
      (([] : List (Option String × Record)).filter isColoredVertexRec).length := by
  have h : parseASCII [] zeroVertexInput = .ok ({}, []) := by
    with_unfolding_all decide
  exact ply_color_flag_existential [] zeroVertexInput {} [] h

/-! ### Claim C9 — comments are token-joined, not verbatim -/

theorem flushElement_comments (cur : Option PlyElement) (hdr : PlyHeader) :
    (flushElement cur hdr).comments = hdr.comments := by
  unfold flushElement
  split <;> simp

theorem parseHeaderLoop_comments (m : NameMapping) :
    ∀ (lines : List String) (cur : Option PlyElement) (hdr h : PlyHeader),
      parseHeaderLoop m lines cur hdr = .ok h →
      h.comments = hdr.comments ++ extractComments lines
  | [], cur, hdr, h, hp => by
    unfold parseHeaderLoop at hp
    injection hp with hp
    subst hp
    simp [flushElement_comments, extractComments]
  | l :: rest, cur, hdr, h, hp => by
    unfold parseHeaderLoop at hp
    have hext : extractComments (l :: rest) =
        (let toks := splitWsJS (trimJS l)
         if toks.head? = some "comment" then
           String.intercalate " " toks.tail :: extractComments rest
         else extractComments rest) := by
      simp only [extractComments, List.filterMap_cons]
      split <;> simp_all [extractComments]
    by_cases hbl : trimJS l = ""
    · rw [if_pos hbl] at hp
      have hskip : extractComments (l :: rest) = extractComments rest := by
        rw [hext]
        simp [hbl, splitWsJS, splitWsAux]
      rw [hskip]
      exact parseHeaderLoop_comments m rest cur hdr h hp
    · rw [if_neg hbl] at hp
      rw [hext]
      by_cases hfmt : (splitWsJS (trimJS l)).head?.getD "" = "format"
      · rw [if_pos hfmt] at hp
        have hrec := parseHeaderLoop_comments m rest cur _ h hp
        have hnc : ¬ (splitWsJS (trimJS l)).head? = some "comment" := by
          rcases hh : (splitWsJS (trimJS l)).head? with _ | t
          · simp
          · rw [hh] at hfmt
            simp at hfmt
            simp [hfmt]
        simp [hnc, hrec]
      · rw [if_neg hfmt] at hp
        by_cases hcm : (splitWsJS (trimJS l)).head?.getD "" = "comment"
        · rw [if_pos hcm] at hp
          have hc' : (splitWsJS (trimJS l)).head? = some "comment" := by
            rcases hh : (splitWsJS (trimJS l)).head? with _ | t
            · rw [hh] at hcm
              simp at hcm
            · rw [hh] at hcm
              simp at hcm
              simp [hcm]
          have hrec := parseHeaderLoop_comments m rest cur _ h hp
          rw [if_pos hc', hrec]
          simp
        · rw [if_neg hcm] at hp
          have hnc : ¬ (splitWsJS (trimJS l)).head? = some "comment" := by
            rcases hh : (splitWsJS (trimJS l)).head? with _ | t
            · simp
            · rw [hh] at hcm
              simp at hcm
              simp [hcm]
          rw [if_neg hnc]
          by_cases hel : (splitWsJS (trimJS l)).head?.getD "" = "element"
          · rw [if_pos hel] at hp
            have hrec := parseHeaderLoop_comments m rest _ _ h hp
            rw [hrec, flushElement_comments]
          · rw [if_neg hel] at hp
            by_cases hpr : (splitWsJS (trimJS l)).head?.getD "" = "property"
            · rw [if_pos hpr] at hp
              split at hp
              · cases hp
              · exact parseHeaderLoop_comments m rest _ _ h hp
            · rw [if_neg hpr] at hp
              exact parseHeaderLoop_comments m rest cur hdr h hp

/-- C9 counterexample: the header line `comment a  b` (two interior spaces)
is stored as `a b` — interior whitespace is not preserved, contradicting
the verbatim part of the claim. -/
theorem ply_comment_not_verbatim :
    (parseHeader [] doubleSpaceCommentInput).map PlyHeader.comments = .ok ["a b"] ∧
      ("a b" : String) ≠ "a  b" := by
  constructor
  · with_unfolding_all decide
  · decide

/-- C9 amended: for every successfully parsed header, the comments sequence
is, in encounter order and without deduplication, the comment lines' tokens
after the directive token re-joined with single spaces (so runs of interior
whitespace collapse and edges are trimmed). -/
theorem ply_comments_whitespace_normalized (m : NameMapping) (data : String) (hdr : PlyHeader)
    (h : parseHeader m data = .ok hdr) :
    hdr.comments = extractComments (splitNlJS (headerTextOf data)) := by
  simpa using parseHeaderLoop_comments m (splitNlJS (headerTextOf data)) none {} hdr h

/-- Witness for the amended C9 at the double-space comment input. -/
theorem ply_comments_whitespace_normalized_witness :
    ({ comments := ["a b"], elements := [], format := some "ascii",
       version := some "1.0" } : PlyHeader).comments =
      extractComments (splitNlJS (headerTextOf doubleSpaceCommentInput)) := by
  have h : parseHeader [] doubleSpaceCommentInput =
      .ok { comments := ["a b"], elements := [], format := some "ascii",
            version := some "1.0" } := by
    with_unfolding_all decide
  exact ply_comments_whitespace_normalized [] doubleSpaceCommentInput _ h

/-! ### Claim C7 — the record loop is driven by bytes 80–83, not 76–79 -/

/-- C7 amended: the triangle count driving the binary record loop is the
little-endian uint32 at byte offset 80 (bytes 80–83, immediately after the
80-byte header): every successful decode emits exactly 3 vertices per counted
face. -/
theorem stl_triangle_count_at_offset_80 (data : List Nat) (g : STLGeometry)
    (hg : stlParseBinary data = some g) :
    (getUint32le data 80).map (fun n => 3 * n) = some g.vertices.length := by
  unfold stlParseBinary at hg
  rcases hu : getUint32le data 80 with _ | n
  · rw [hu] at hg
    cases hg
  · rw [hu] at hg
    dsimp only at hg
    split at hg
    · cases hg
    · rename_i recs hrecs
      injection hg with hg
      subst hg
      refine congrArg some ?_
      simp only []
      rw [flatMap_three_length STLFaceRec.v1 STLFaceRec.v2 STLFaceRec.v3 recs,
        optMap_length _ _ recs hrecs, List.length_range]

/-- C7 counterexample: a buffer whose bytes 76–79 hold the value 2 while
bytes 80–83 hold 1 decodes exactly one triangle record (3 vertices) — the
count is read at offset 80, not from the last 4 bytes of the 80-byte
header. -/
theorem stl_count_read_at_80_not_76 :
    (stlParseBinary stlCountBuf).map (fun g => g.vertices.length) = some 3 ∧
      u32le stlCountBuf 76 = 2 := by
  refine ⟨?_, by decide⟩
  have hn : getUint32le stlCountBuf 80 = some 1 := by decide
  have hci : lastColorSig stlCountBuf = none := by decide
  have hdef : stlDefaults stlCountBuf = none := by
    unfold stlDefaults
    rw [hci]
    rfl
  have hv0 : stlReadVec3 stlCountBuf (84 + 0 * 50) = some (.fin 0, .fin 0, .fin 0) := by
    with_unfolding_all decide
  have hv1 : stlReadVec3 stlCountBuf (84 + 0 * 50 + 12) = some (.fin 0, .fin 0, .fin 0) := by
    with_unfolding_all decide
  have hv2 : stlReadVec3 stlCountBuf (84 + 0 * 50 + 24) = some (.fin 0, .fin 0, .fin 0) := by
    with_unfolding_all decide
  have hv3 : stlReadVec3 stlCountBuf (84 + 0 * 50 + 36) = some (.fin 0, .fin 0, .fin 0) := by
    with_unfolding_all decide
  have hface : stlReadFace stlCountBuf none 0 = some
      { normal := (.fin 0, .fin 0, .fin 0), v1 := (.fin 0, .fin 0, .fin 0),
        v2 := (.fin 0, .fin 0, .fin 0), v3 := (.fin 0, .fin 0, .fin 0), color := none } := by
    unfold stlReadFace
    rw [hv0]
    dsimp only
    rw [show stlFaceColor stlCountBuf none (84 + 0 * 50) = some none from rfl]
    dsimp only
    rw [hv1, hv2, hv3]
  have hopt : optMap (stlReadFace stlCountBuf none) (List.range 1) = some
      [{ normal := (.fin 0, .fin 0, .fin 0), v1 := (.fin 0, .fin 0, .fin 0),
         v2 := (.fin 0, .fin 0, .fin 0), v3 := (.fin 0, .fin 0, .fin 0), color := none }] := by
    rw [show List.range 1 = [0] from rfl]
    unfold optMap
    rw [hface]
    rfl
  unfold stlParseBinary
  rw [hn]
  dsimp only
  rw [hdef, hopt, hci]
  rfl

/-- Witness for the amended C7 at the same concrete buffer. -/
theorem stl_triangle_count_at_offset_80_witness :
    (getUint32le stlCountBuf 80).map (fun n => 3 * n) = some 3 := by
  have hn : getUint32le stlCountBuf 80 = some 1 := by decide
  have hci : lastColorSig stlCountBuf = none := by decide
  have hdef : stlDefaults stlCountBuf = none := by
    unfold stlDefaults
    rw [hci]
    rfl
  have hv0 : stlReadVec3 stlCountBuf (84 + 0 * 50) = some (.fin 0, .fin 0, .fin 0) := by
    with_unfolding_all decide
  have hv1 : stlReadVec3 stlCountBuf (84 + 0 * 50 + 12) = some (.fin 0, .fin 0, .fin 0) := by
    with_unfolding_all decide
  have hv2 : stlReadVec3 stlCountBuf (84 + 0 * 50 + 24) = some (.fin 0, .fin 0, .fin 0) := by
    with_unfolding_all decide
  have hv3 : stlReadVec3 stlCountBuf (84 + 0 * 50 + 36) = some (.fin 0, .fin 0, .fin 0) := by
    with_unfolding_all decide
  have hface : stlReadFace stlCountBuf none 0 = some
      { normal := (.fin 0, .fin 0, .fin 0), v1 := (.fin 0, .fin 0, .fin 0),
        v2 := (.fin 0, .fin 0, .fin 0), v3 := (.fin 0, .fin 0, .fin 0), color := none } := by
    unfold stlReadFace
    rw [hv0]
    dsimp only
    rw [show stlFaceColor stlCountBuf none (84 + 0 * 50) = some none from rfl]
    dsimp only
    rw [hv1, hv2, hv3]
  have hopt : optMap (stlReadFace stlCountBuf none) (List.range 1) = some
      [{ normal := (.fin 0, .fin 0, .fin 0), v1 := (.fin 0, .fin 0, .fin 0),
         v2 := (.fin 0, .fin 0, .fin 0), v3 := (.fin 0, .fin 0, .fin 0), color := none }] := by
    rw [show List.range 1 = [0] from rfl]
    unfold optMap
    rw [hface]
    rfl
  have hg : stlParseBinary stlCountBuf = some
      { vertices := [(.fin 0, .fin 0, .fin 0), (.fin 0, .fin 0, .fin 0),
          (.fin 0, .fin 0, .fin 0)],
        normals := [(.fin 0, .fin 0, .fin 0), (.fin 0, .fin 0, .fin 0),
          (.fin 0, .fin 0, .fin 0)],
        hasColors := false, colors := none, alpha := none } := by
    unfold stlParseBinary
    rw [hn]
    dsimp only
    rw [hdef, hopt, hci]
    rfl
  exact stl_triangle_count_at_offset_80 stlCountBuf _ hg

/-! ### Claim C6 — packed per-triangle color decoding -/

theorem stlFaceColor_some (data : List Nat) (dr dg db : ℚ) (start : Nat)
    (c : Option (ℚ × ℚ × ℚ)) (h : stlFaceColor data (some (dr, dg, db)) start = some c) :
    c = some
      (let p := u16le data (start + 48)
       if p.land 0x8000 = 0 then
         (((p.land 0x1F : Nat) : ℚ) / 31, (((p.shiftRight 5).land 0x1F : Nat) : ℚ) / 31,
          (((p.shiftRight 10).land 0x1F : Nat) : ℚ) / 31)
       else (dr, dg, db)) := by
  unfold stlFaceColor at h
  rcases hp : getUint16le data (start + 48) with _ | p
  · rw [hp] at h
    cases h
  · rw [hp] at h
    have hval : p = u16le data (start + 48) := by
      unfold getUint16le at hp
      split at hp
      · injection hp with hp
        exact hp.symm
      · cases hp
    dsimp only at h
    by_cases hbit : p.land 0x8000 = 0
    · rw [if_pos hbit] at h
      injection h with h
      subst h
      rw [← hval, if_pos hbit]
    · rw [if_neg hbit] at h
      injection h with h
      subst h
      rw [← hval, if_neg hbit]

theorem stlReadFace_color (data : List Nat) (dr dg db : ℚ) (face : Nat) (r : STLFaceRec)
    (h : stlReadFace data (some (dr, dg, db)) face = some r) :
    r.color = some
      (let p := u16le data (84 + face * 50 + 48)
       if p.land 0x8000 = 0 then
         (((p.land 0x1F : Nat) : ℚ) / 31, (((p.shiftRight 5).land 0x1F : Nat) : ℚ) / 31,
          (((p.shiftRight 10).land 0x1F : Nat) : ℚ) / 31)
       else (dr, dg, db)) := by
  unfold stlReadFace at h
  rcases hn : stlReadVec3 data (84 + face * 50) with _ | normal
  · rw [hn] at h
    cases h
  · rw [hn] at h
    dsimp only at h
    rcases hc : stlFaceColor data (some (dr, dg, db)) (84 + face * 50) with _ | c
    · rw [hc] at h
      cases h
    · rw [hc] at h
      dsimp only at h
      rcases h1 : stlReadVec3 data (84 + face * 50 + 12) with _ | v1 <;> rw [h1] at h
      · cases h
      · rcases h2 : stlReadVec3 data (84 + face * 50 + 24) with _ | v2 <;> rw [h2] at h
        · cases h
        · rcases h3 : stlReadVec3 data (84 + face * 50 + 36) with _ | v3 <;> rw [h3] at h
          · cases h
          · dsimp only at h
            injection h with h
            subst h
            simpa using stlFaceColor_some data dr dg db (84 + face * 50) c hc

/-- C6: when the `COLOR=` extension was detected (last signature at `ci`),
every successful binary decode carries a color stream with, per face, three
identical entries determined by the packed uint16 at byte 48 of the face's
50-byte record: bit 15 clear takes the low 5/5/5 bit fields, each divided by
31; bit 15 set takes the header default color, bytes `ci+6 .. ci+8` each
divided by 255 — so a default of R=255, G=0, B=0 yields `(1, 0, 0)` on all 3
vertices of a bit-15-set face. -/
theorem stl_packed_color_decoding (data : List Nat) (ci n : Nat) (g : STLGeometry)
    (hci : lastColorSig data = some ci) (hn : getUint32le data 80 = some n)
    (hg : stlParseBinary data = some g) :
    g.hasColors = true ∧
    g.colors = some ((List.range n).flatMap (fun f =>
      let p := u16le data (84 + f * 50 + 48)
      let c := if p.land 0x8000 = 0 then
          (((p.land 0x1F : Nat) : ℚ) / 31, (((p.shiftRight 5).land 0x1F : Nat) : ℚ) / 31,
           (((p.shiftRight 10).land 0x1F : Nat) : ℚ) / 31)
        else
          ((byteAt data (ci + 6) : ℚ) / 255, (byteAt data (ci + 7) : ℚ) / 255,
           (byteAt data (ci + 8) : ℚ) / 255)
      [c, c, c])) := by
  have hdef : stlDefaults data =
      some ((byteAt data (ci + 6) : ℚ) / 255, (byteAt data (ci + 7) : ℚ) / 255,
        (byteAt data (ci + 8) : ℚ) / 255) := by
    unfold stlDefaults
    rw [hci]
    rfl
  unfold stlParseBinary at hg
  rw [hn] at hg
  dsimp only at hg
  split at hg
  · cases hg
  · rename_i recs hrecs
    injection hg with hg
    subst hg
    rw [hdef] at hrecs
    constructor
    · simp [hci]
    · dsimp only
      rw [hci]
      dsimp only [Option.map]
      refine congrArg some ?_
      refine optMap_flatMap _ _ _ ?_ (List.range n) recs hrecs
      intro f r hr
      rw [stlReadFace_color data _ _ _ f r hr]

/-- Witness for C6: the concrete colored buffer — default R=255, G=0, B=0 and
one face whose packed color has bit 15 set decodes to a color stream whose
formula instance evaluates to `(1, 0, 0)` on all 3 vertices. -/
theorem stl_packed_color_decoding_witness :
    ({ vertices := [(.fin 0, .fin 0, .fin 0), (.fin 0, .fin 0, .fin 0),
         (.fin 0, .fin 0, .fin 0)],
       normals := [(.fin 0, .fin 0, .fin 0), (.fin 0, .fin 0, .fin 0),
         (.fin 0, .fin 0, .fin 0)],
       hasColors := true, colors := some [(1, 0, 0), (1, 0, 0), (1, 0, 0)],
       alpha := some 1 } : STLGeometry).hasColors = true ∧
    ({ vertices := [(.fin 0, .fin 0, .fin 0), (.fin 0, .fin 0, .fin 0),
         (.fin 0, .fin 0, .fin 0)],
       normals := [(.fin 0, .fin 0, .fin 0), (.fin 0, .fin 0, .fin 0),
         (.fin 0, .fin 0, .fin 0)],
       hasColors := true, colors := some [(1, 0, 0), (1, 0, 0), (1, 0, 0)],
       alpha := some 1 } : STLGeometry).colors =
      some ((List.range 1).flatMap (fun f =>
        let p := u16le stlColorBuf (84 + f * 50 + 48)
        let c := if p.land 0x8000 = 0 then
            (((p.land 0x1F : Nat) : ℚ) / 31, (((p.shiftRight 5).land 0x1F : Nat) : ℚ) / 31,
             (((p.shiftRight 10).land 0x1F : Nat) : ℚ) / 31)
          else
            ((byteAt stlColorBuf (0 + 6) : ℚ) / 255, (byteAt stlColorBuf (0 + 7) : ℚ) / 255,
             (byteAt stlColorBuf (0 + 8) : ℚ) / 255)
        [c, c, c])) := by
  have hci : lastColorSig stlColorBuf = some 0 := by decide
  have hn : getUint32le stlColorBuf 80 = some 1 := by decide
  have hdef : stlDefaults stlColorBuf = some (1, 0, 0) := by
    unfold stlDefaults
    rw [hci]
    with_unfolding_all decide
  have hv0 : stlReadVec3 stlColorBuf (84 + 0 * 50) = some (.fin 0, .fin 0, .fin 0) := by
    with_unfolding_all decide
  have hv1 : stlReadVec3 stlColorBuf (84 + 0 * 50 + 12) = some (.fin 0, .fin 0, .fin 0) := by
    with_unfolding_all decide
  have hv2 : stlReadVec3 stlColorBuf (84 + 0 * 50 + 24) = some (.fin 0, .fin 0, .fin 0) := by
    with_unfolding_all decide
  have hv3 : stlReadVec3 stlColorBuf (84 + 0 * 50 + 36) = some (.fin 0, .fin 0, .fin 0) := by
    with_unfolding_all decide
  have hcol : stlFaceColor stlColorBuf (some (1, 0, 0)) (84 + 0 * 50) =
      some (some (1, 0, 0)) := by
    with_unfolding_all decide
  have hface : stlReadFace stlColorBuf (some (1, 0, 0)) 0 = some
      { normal := (.fin 0, .fin 0, .fin 0), v1 := (.fin 0, .fin 0, .fin 0),
        v2 := (.fin 0, .fin 0, .fin 0), v3 := (.fin 0, .fin 0, .fin 0),
        color := some (1, 0, 0) } := by
    unfold stlReadFace
    rw [hv0]
    dsimp only
    rw [hcol]
    dsimp only
    rw [hv1, hv2, hv3]
  have hopt : optMap (stlReadFace stlColorBuf (some (1, 0, 0))) (List.range 1) = some
      [{ normal := (.fin 0, .fin 0, .fin 0), v1 := (.fin 0, .fin 0, .fin 0),
         v2 := (.fin 0, .fin 0, .fin 0), v3 := (.fin 0, .fin 0, .fin 0),
         color := some (1, 0, 0) }] := by
    rw [show List.range 1 = [0] from rfl]
    unfold optMap
    rw [hface]
    rfl
  have hg : stlParseBinary stlColorBuf = some
      { vertices := [(.fin 0, .fin 0, .fin 0), (.fin 0, .fin 0, .fin 0),
          (.fin 0, .fin 0, .fin 0)],
        normals := [(.fin 0, .fin 0, .fin 0), (.fin 0, .fin 0, .fin 0),
          (.fin 0, .fin 0, .fin 0)],
        hasColors := true, colors := some [(1, 0, 0), (1, 0, 0), (1, 0, 0)],
        alpha := some 1 } := by
    unfold stlParseBinary
    rw [hn]
    dsimp only
    rw [hdef, hopt, hci]
    with_unfolding_all decide
  exact stl_packed_color_decoding stlColorBuf 0 1 _ hci hn hg

/-! ### Claim C8 — the fallback Byte View reproduces IEEE-754 exactly -/

theorem decodeF64_eq (b0 b1 b2 b3 b4 b5 b6 b7 : Nat)
    (h0 : b0 < 256) (h1 : b1 < 256) (h2 : b2 < 256) (h3 : b3 < 256)
    (h4 : b4 < 256) (h5 : b5 < 256) (h6 : b6 < 256) (h7 : b7 < 256) :
    decodeF64 [b0, b1, b2, b3, b4, b5, b6, b7] =
      ieee64 (natFromBytesLE [b0, b1, b2, b3, b4, b5, b6, b7]) := by
  have hN : natFromBytesLE [b0, b1, b2, b3, b4, b5, b6, b7] =
      b0 + 2^8*b1 + 2^16*b2 + 2^24*b3 + 2^32*b4 + 2^40*b5 + 2^48*b6 + 2^56*b7 := by
    simp [natFromBytesLE]
    ring
  have hlor : ((b7 * 2 % 256) * 8).lor (b6 / 16) = 16 * (b7 % 128) + b6 / 16 := by
    have e1 : (b7 * 2 % 256) * 8 = 2 ^ 4 * (b7 % 128) := by omega
    rw [e1, lor_as_add 4 (b7 % 128) (b6 / 16) (by omega)]
    norm_num
  have hs : sign64 (natFromBytesLE [b0, b1, b2, b3, b4, b5, b6, b7]) = b7 / 128 := by
    unfold sign64
    rw [hN]
    omega
  have he : expField64 (natFromBytesLE [b0, b1, b2, b3, b4, b5, b6, b7]) =
      16 * (b7 % 128) + b6 / 16 := by
    unfold expField64
    rw [hN]
    omega
  have hm : mantissa64 (natFromBytesLE [b0, b1, b2, b3, b4, b5, b6, b7]) =
      (b6 % 16) * 2^48 + b5 * 2^40 + b4 * 2^32 + b3 * 2^24 + b2 * 2^16 + b1 * 2^8 + b0 := by
    unfold mantissa64
    rw [hN]
    omega
  have hsign2 : b7 / 128 = 0 ∨ b7 / 128 = 1 := by omega
  unfold decodeF64 ieee64
  simp only [byteAt, List.getD, List.get?, Option.getD, hlor, hs, he, hm]
  by_cases hE : 16 * (b7 % 128) + b6 / 16 = 2047
  · rw [hE]
    rw [if_pos (show (((2047 : Nat) : Int) - 1023 = 1024) by norm_num), if_pos rfl]
    by_cases hmz :
        (b6 % 16) * 2^48 + b5 * 2^40 + b4 * 2^32 + b3 * 2^24 + b2 * 2^16 + b1 * 2^8 + b0 = 0
    · rw [if_neg (not_not_intro hmz), if_neg (not_not_intro hmz)]
      rcases hsign2 with hsg | hsg <;> simp [hsg]
    · rw [if_pos hmz, if_pos hmz]
  · have hE' : ¬ (((16 * (b7 % 128) + b6 / 16 : Nat) : Int) - 1023 = 1024) := by
      omega
    rw [if_neg hE', if_neg hE]
    by_cases hE0 : 16 * (b7 % 128) + b6 / 16 = 0
    · rw [if_pos (show ((16 * (b7 % 128) + b6 / 16 : Nat) : Int) - 1023 = -1023 by omega),
        if_pos hE0]
      rw [show ((-1022 : Int) - 52) = (-1074 : Int) from by norm_num]
      rcases hsign2 with hsg | hsg <;> simp [hsg]
    · rw [if_neg (show ¬ (((16 * (b7 % 128) + b6 / 16 : Nat) : Int) - 1023 = -1023) by omega),
        if_neg hE0]
      rcases hsign2 with hsg | hsg
      all_goals (
        simp only [hsg, reduceIte]
        refine congrArg FP.fin ?_
        simp only [pow2_eq_zpow]
        rw [show ((16 * (b7 % 128) + b6 / 16 : Nat) : Int) - 1075 =
            (((16 * (b7 % 128) + b6 / 16 : Nat) : Int) - 1023) + (-52) from by ring,
          zpow_add₀ (by norm_num : (2:ℚ) ≠ 0)]
        push_cast
        rw [zpow_neg]
        field_simp
        try ring_nf
        try simp)

theorem decodeF32_eq (b0 b1 b2 b3 : Nat)
    (h0 : b0 < 256) (h1 : b1 < 256) (h2 : b2 < 256) (h3 : b3 < 256) :
    decodeF32 [b0, b1, b2, b3] = ieee32 (natFromBytesLE [b0, b1, b2, b3]) := by
  have hN : natFromBytesLE [b0, b1, b2, b3] = b0 + 2^8*b1 + 2^16*b2 + 2^24*b3 := by
    simp [natFromBytesLE]
    ring
  have hlorE : (b3 * 2 % 256).lor (b2 / 128) = 2 * (b3 % 128) + b2 / 128 := by
    have e1 : b3 * 2 % 256 = 2 ^ 1 * (b3 % 128) := by omega
    rw [e1, lor_as_add 1 (b3 % 128) (b2 / 128) (by omega)]
    norm_num
  have hlorM : ((b2 % 128) * 2 ^ 16).lor ((b1 * 2 ^ 8).lor b0) =
      (b2 % 128) * 2 ^ 16 + b1 * 2 ^ 8 + b0 := by
    have e1 : (b1 * 2 ^ 8).lor b0 = 2 ^ 8 * b1 + b0 := by
      rw [show b1 * 2 ^ 8 = 2 ^ 8 * b1 from by ring, lor_as_add 8 b1 b0 h0]
    have e2 : (b2 % 128) * 2 ^ 16 = 2 ^ 16 * (b2 % 128) := by ring
    rw [e1, e2, lor_as_add 16 (b2 % 128) (2 ^ 8 * b1 + b0) (by omega)]
    ring
  have hs : sign32 (natFromBytesLE [b0, b1, b2, b3]) = b3 / 128 := by
    unfold sign32
    rw [hN]
    omega
  have he : expField32 (natFromBytesLE [b0, b1, b2, b3]) = 2 * (b3 % 128) + b2 / 128 := by
    unfold expField32
    rw [hN]
    omega
  have hm : mantissa32 (natFromBytesLE [b0, b1, b2, b3]) =
      (b2 % 128) * 2 ^ 16 + b1 * 2 ^ 8 + b0 := by
    unfold mantissa32
    rw [hN]
    omega
  have hsign2 : b3 / 128 = 0 ∨ b3 / 128 = 1 := by omega
  unfold decodeF32 ieee32
  simp only [byteAt, List.getD, List.get?, Option.getD, hlorE, hlorM, hs, he, hm]
  by_cases hE : 2 * (b3 % 128) + b2 / 128 = 255
  · rw [hE]
    rw [if_pos (show (((255 : Nat) : Int) - 127 = 128) by norm_num), if_pos rfl]
    by_cases hmz : (b2 % 128) * 2 ^ 16 + b1 * 2 ^ 8 + b0 = 0
    · rw [if_neg (not_not_intro hmz), if_neg (not_not_intro hmz)]
      rcases hsign2 with hsg | hsg <;> simp [hsg]
    · rw [if_pos hmz, if_pos hmz]
  · have hE' : ¬ (((2 * (b3 % 128) + b2 / 128 : Nat) : Int) - 127 = 128) := by
      omega
    rw [if_neg hE', if_neg hE]
    by_cases hE0 : 2 * (b3 % 128) + b2 / 128 = 0
    · rw [if_pos (show ((2 * (b3 % 128) + b2 / 128 : Nat) : Int) - 127 = -127 by omega),
        if_pos hE0]
      rw [show ((-126 : Int) - 23) = (-149 : Int) from by norm_num]
      rcases hsign2 with hsg | hsg <;> simp [hsg]
    · rw [if_neg (show ¬ (((2 * (b3 % 128) + b2 / 128 : Nat) : Int) - 127 = -127) by omega),
        if_neg hE0]
      rcases hsign2 with hsg | hsg
      all_goals (
        simp only [hsg, reduceIte]
        refine congrArg FP.fin ?_
        simp only [pow2_eq_zpow]
        rw [show ((2 * (b3 % 128) + b2 / 128 : Nat) : Int) - 150 =
            (((2 * (b3 % 128) + b2 / 128 : Nat) : Int) - 127) + (-23) from by ring,
          zpow_add₀ (by norm_num : (2:ℚ) ≠ 0)]
        push_cast
        rw [zpow_neg]
        field_simp
        try ring_nf
        try simp)

/-- C8: the polyfill's float reads return exactly the IEEE-754 value encoded
by the bytes under the requested endianness — NaN, signed infinities,
subnormals and normal values included.  The requested order is honored by
reversing the slice before bit-field extraction when big-endian order is
requested, which is exactly the `if le then w else w.reverse` on the right:
the extracted pattern is the byte slice read in the requested order. -/
theorem byteview_float_ieee :
    (∀ (data : List Nat) (off : Nat) (le : Bool),
      (∀ b ∈ data, b < 256) → off + 8 ≤ data.length →
      getFloat64 data off le =
        some (ieee64 (natFromBytesLE
          (if le then (data.drop off).take 8 else ((data.drop off).take 8).reverse)))) ∧
    (∀ (data : List Nat) (off : Nat) (le : Bool),
      (∀ b ∈ data, b < 256) → off + 4 ≤ data.length →
      getFloat32 data off le =
        some (ieee32 (natFromBytesLE
          (if le then (data.drop off).take 4 else ((data.drop off).take 4).reverse)))) := by
  constructor
  · intro data off le hbytes hlen
    unfold getFloat64 dvGetBytes
    rw [if_pos hlen]
    dsimp only [Option.map]
    refine congrArg some ?_
    set w : List Nat := if le then (data.drop off).take 8 else ((data.drop off).take 8).reverse
      with hw
    have hwlen : w.length = 8 := by
      rw [hw]
      rcases le <;> simp [List.length_take, List.length_drop] <;> omega
    have hwmem : ∀ b ∈ w, b < 256 := by
      intro b hb
      rw [hw] at hb
      rcases le <;> simp at hb <;> exact hbytes b (take_drop_mem (by simpa using hb))
    clear_value w
    rcases w with _ | ⟨b0, w⟩
    · simp at hwlen
    rcases w with _ | ⟨b1, w⟩
    · simp at hwlen
    rcases w with _ | ⟨b2, w⟩
    · simp at hwlen
    rcases w with _ | ⟨b3, w⟩
    · simp at hwlen
    rcases w with _ | ⟨b4, w⟩
    · simp at hwlen
    rcases w with _ | ⟨b5, w⟩
    · simp at hwlen
    rcases w with _ | ⟨b6, w⟩
    · simp at hwlen
    rcases w with _ | ⟨b7, w⟩
    · simp at hwlen
    rcases w with _ | ⟨b8, w⟩
    · exact decodeF64_eq b0 b1 b2 b3 b4 b5 b6 b7
        (hwmem b0 (by simp)) (hwmem b1 (by simp)) (hwmem b2 (by simp)) (hwmem b3 (by simp))
        (hwmem b4 (by simp)) (hwmem b5 (by simp)) (hwmem b6 (by simp)) (hwmem b7 (by simp))
    · simp at hwlen
  · intro data off le hbytes hlen
    unfold getFloat32 dvGetBytes
    rw [if_pos hlen]
    dsimp only [Option.map]
    refine congrArg some ?_
    set w : List Nat := if le then (data.drop off).take 4 else ((data.drop off).take 4).reverse
      with hw
    have hwlen : w.length = 4 := by
      rw [hw]
      rcases le <;> simp [List.length_take, List.length_drop] <;> omega
    have hwmem : ∀ b ∈ w, b < 256 := by
      intro b hb
      rw [hw] at hb
      rcases le <;> simp at hb <;> exact hbytes b (take_drop_mem (by simpa using hb))
    clear_value w
    rcases w with _ | ⟨b0, w⟩
    · simp at hwlen
    rcases w with _ | ⟨b1, w⟩
    · simp at hwlen
    rcases w with _ | ⟨b2, w⟩
    · simp at hwlen
    rcases w with _ | ⟨b3, w⟩
    · simp at hwlen
    rcases w with _ | ⟨b4, w⟩
    · exact decodeF32_eq b0 b1 b2 b3
        (hwmem b0 (by simp)) (hwmem b1 (by simp)) (hwmem b2 (by simp)) (hwmem b3 (by simp))
    · simp at hwlen

/-- Witness for C8: the little-endian bytes of the double 1.0 and the
big-endian bytes of the float 1.0. -/
theorem byteview_float_ieee_witness :
    getFloat64 [0, 0, 0, 0, 0, 0, 240, 63] 0 true =
      some (ieee64 (natFromBytesLE
        (if true then (([0, 0, 0, 0, 0, 0, 240, 63] : List Nat).drop 0).take 8
         else ((([0, 0, 0, 0, 0, 0, 240, 63] : List Nat).drop 0).take 8).reverse))) ∧
    getFloat32 [63, 128, 0, 0] 0 false =
      some (ieee32 (natFromBytesLE
        (if false then (([63, 128, 0, 0] : List Nat).drop 0).take 4
         else ((([63, 128, 0, 0] : List Nat).drop 0).take 4).reverse))) :=
  ⟨byteview_float_ieee.1 [0, 0, 0, 0, 0, 0, 240, 63] 0 true (by decide) (by decide),
   byteview_float_ieee.2 [63, 128, 0, 0] 0 false (by decide) (by decide)⟩
